import Mathlib

/-!
Verification of the StateOS kernel core (oskernel.c, osmessagebuffer.c)
against its natural-language specification.

The kernel state is embedded shallowly: the intrusive circular lists of the
C code (ready list rooted at IDLE, delayed/timer list rooted at WAIT, the
per-object waiters chains threaded through `obj.queue`/`back`) are modelled
as plain Lean lists in linear view, with the sentinel (IDLE resp. WAIT)
implicit at the end of the list.  Machine `unsigned` values are Nat with an
explicit `% 2^32` where the C arithmetic can wrap.  Tasks and timers are
identified by their address, modelled as a Nat, with their mutable fields
kept in maps.
-/

namespace StateOS

/-- Task identity (the `tsk_t *` pointer). -/
abbrev Tid := Nat

/-- Object identity (an `os_id` pointer: mutex, message buffer, timer...). -/
abbrev Oid := Nat

/-- Width of the `unsigned` tick counter (32-bit build). -/
def w32 : Nat := 2 ^ 32

/-- Unsigned 32-bit subtraction `a - b` (C unsigned wrap-around). -/
def sub32 (a b : Nat) : Nat := (a + w32 - b) % w32

/-- Unsigned 32-bit addition (C unsigned wrap-around). -/
def add32 (a b : Nat) : Nat := (a + b) % w32

/-- Modelled from the spec: `IMMEDIATE = 0` means "poll, do not block"
(os.h is not under src/). -/
def IMMEDIATE : Nat := 0

/-- Modelled from the spec: the reserved sentinel `INFINITE` meaning
"no deadline" (os.h is not under src/; the expiry arithmetic of
oskernel.c line 386 needs it to be the all-ones unsigned value). -/
def INFINITE : Nat := w32 - 1

/-- Modelled from the spec (section 6): return-code alphabet, `SUCCESS = 0`
followed by `STOPPED`, `TIMEOUT`, `DELAYED` (os.h is not under src/). -/
def E_SUCCESS : Nat := 0

/-- Modelled from the spec (section 6): the `STOPPED` return code. -/
def E_STOPPED : Nat := 1

/-- Modelled from the spec (section 6): the `TIMEOUT` return code. -/
def E_TIMEOUT : Nat := 2

/-- The `obj.id` tags of kernel objects: ID_READY, ID_DELAYED, ID_IDLE,
ID_TIMER, ID_STOPPED. -/
inductive OKind where
  | ready
  | delayed
  | idle
  | timer
  | stopped
deriving DecidableEq, Repr

/-- The mutable fields of a `tsk_t` (task object) that the modelled kernel
functions read or write.  `held` is the task's held-mutex chain
(`tsk->list` threaded through `mtx->list`), flattened to a list of mutex
ids.  `tmpSize`, `tmpIn`, `tmpOut` model the `tmp.msg` scratch
(`tmp.msg.size`, the bytes written through `tmp.msg.data.in`, and the bytes
readable through `tmp.msg.data.out`). -/
structure TRec where
  oid     : OKind
  prio    : Nat
  basic   : Nat
  guard   : Option Oid
  event   : Nat
  start   : Nat
  delay   : Nat
  held    : List Oid
  tmpSize : Nat
  tmpIn   : List Nat
  tmpOut  : List Nat
deriving DecidableEq, Repr

/-- A task record with every field cleared (static zero initialisation). -/
def TRec.zero : TRec :=
  { oid := .stopped, prio := 0, basic := 0, guard := none, event := 0
  , start := 0, delay := 0, held := [], tmpSize := 0, tmpIn := [], tmpOut := [] }

/-- The mutable fields of a `tmr_t` (timer object).  `hasCb` records
whether `tmr->state` (the callback procedure pointer) is non-null. -/
structure TmrRec where
  oid    : OKind
  start  : Nat
  delay  : Nat
  period : Nat
  hasCb  : Bool
deriving DecidableEq, Repr

/-- A timer record with every field cleared. -/
def TmrRec.zero : TmrRec :=
  { oid := .stopped, start := 0, delay := 0, period := 0, hasCb := false }

/-- An entry of the delayed/timer list: either a delayed task or a timer. -/
inductive DEnt where
  | task  (t : Tid)
  | timer (o : Oid)
deriving DecidableEq, Repr

/-- A message buffer (`msg_t`): byte ring of capacity `limit` with `head`,
`tail` and byte `count`; `data` is the ring storage, a list of bytes of
length `limit`. -/
structure MsgB where
  limit : Nat
  count : Nat
  head  : Nat
  tail  : Nat
  data  : List Nat
deriving DecidableEq, Repr

/-- Observable events emitted by the wake and timer paths: a task woken
with an event code (recording the task's `start`/`delay` fields at the
moment of waking), or a timer callback invocation (recording the timer's
`start`/`delay` fields at the moment of the call). -/
inductive Ev where
  | wake (t : Tid) (event : Nat) (start : Nat) (delay : Nat)
  | cb   (o : Oid) (start : Nat) (delay : Nat)
deriving DecidableEq, Repr

/-- The object id the single modelled message buffer is addressed by. -/
def msgOid : Oid := 100

/-- The kernel state: task and timer records by id, the mutex `owner`
fields, the per-object waiters lists (the `obj.queue` chains), the ready
list (linear view, the IDLE sentinel implicit at the end), the
delayed/timer list (linear view, the WAIT sentinel implicit at the end),
the single modelled message buffer, the tick counter and the current task
(`System.cur`).  The `owners` map is the mutex `owner` field, modelled from
the spec (osmutex.c is not under src/); everything else mirrors oskernel.c
and osmessagebuffer.c. -/
structure Kern where
  tasks   : Tid → TRec
  tmrs    : Oid → TmrRec
  owners  : Oid → Option Tid
  waiters : Oid → List Tid
  ready   : List Tid
  delayed : List DEnt
  msg     : MsgB
  counter : Nat
  cur     : Tid

/-- Priority-ordered insertion walk shared by the ready list and the
waiters chains: keep walking while the neighbour's priority is greater
than or equal to the newcomer's (`tsk->prio <= nxt->prio` continues the
loop), splice before the first strictly lower neighbour, or at the end. -/
def prioInsert (prioOf : Tid → Nat) (p : Nat) (t : Tid) : List Tid → List Tid
  | [] => [t]
  | u :: us => if p ≤ prioOf u then u :: prioInsert prioOf p t us else t :: u :: us

/-- priv_tsk_insert (oskernel.c 86-96): insert `tsk` into the ready list.
With priority 0 the walk is skipped and the task is spliced directly
before IDLE, i.e. at the end of the linear list; otherwise the walk runs
and stops at the latest at IDLE (priority 0). -/
def priv_tsk_insert (s : Kern) (t : Tid) : Kern :=
  let rdy :=
    if (s.tasks t).prio = 0 then s.ready ++ [t]
    else prioInsert (fun u => (s.tasks u).prio) (s.tasks t).prio t s.ready
  { s with ready := rdy
         , tasks := Function.update s.tasks t { s.tasks t with oid := .ready } }

/-- core_tsk_insert (oskernel.c 115-123): priv_tsk_insert plus, in OS_ROBIN
builds, a deferred context-switch request (a port effect with no queue
content). -/
def core_tsk_insert (s : Kern) (t : Tid) : Kern :=
  priv_tsk_insert s t

/-- core_tsk_remove (oskernel.c 127-130) via priv_rdy_remove (73-82):
unlink the task from the ready list and set its id to ID_STOPPED. -/
def core_tsk_remove (s : Kern) (t : Tid) : Kern :=
  { s with ready := s.ready.erase t
         , tasks := Function.update s.tasks t { s.tasks t with oid := .stopped } }

/-- core_tsk_append (oskernel.c 134-148): set `tsk->guard = obj`, then walk
`obj`'s waiters chain while `tsk->prio <= nxt->prio` and splice the task
before the first strictly lower-priority waiter (FIFO on ties). -/
def core_tsk_append (s : Kern) (t : Tid) (o : Oid) : Kern :=
  { s with waiters := Function.update s.waiters o
             (prioInsert (fun u => (s.tasks u).prio) (s.tasks t).prio t (s.waiters o))
         , tasks := Function.update s.tasks t { s.tasks t with guard := some o } }

/-- core_tsk_unlink (oskernel.c 152-162): set `tsk->event = event` and
splice the task out of the waiters chain it is physically linked in (via
its `back`/`obj.queue` pointers), finally nulling `tsk->obj.queue`.  A
task sits in at most one waiters chain, so in the list model the splice is
erasing the task from every per-object waiters list.  The function does
not touch `tsk->guard`. -/
def core_tsk_unlink (s : Kern) (t : Tid) (event : Nat) : Kern :=
  { s with tasks := Function.update s.tasks t { s.tasks t with event := event }
         , waiters := fun o => (s.waiters o).erase t }

/-- The `start` field of a delayed-list entry. -/
def dentStart (s : Kern) : DEnt → Nat
  | .task t => (s.tasks t).start
  | .timer o => (s.tmrs o).start

/-- The `delay` field of a delayed-list entry. -/
def dentDelay (s : Kern) : DEnt → Nat
  | .task t => (s.tasks t).delay
  | .timer o => (s.tmrs o).delay

/-- Set the `obj.id` tag of a delayed-list entry (the `obj->id = id`
assignment of priv_rdy_insert / priv_rdy_remove). -/
def setDEntOid (s : Kern) (e : DEnt) (k : OKind) : Kern :=
  match e with
  | .task t => { s with tasks := Function.update s.tasks t { s.tasks t with oid := k } }
  | .timer o => { s with tmrs := Function.update s.tmrs o { s.tmrs o with oid := k } }

/-- The walk of priv_tmr_insert (oskernel.c 326-337): keep walking while
the neighbour is a finite-delay entry whose remaining time does not exceed
the inserted entry's (`nxt->delay <= tmr->start + tmr->delay - nxt->start`
in unsigned arithmetic), splice before the first later-expiring neighbour
or at the end (before the WAIT sentinel, whose delay is INFINITE). -/
def tmrWalk (s : Kern) (st dl : Nat) (e : DEnt) : List DEnt → List DEnt
  | [] => [e]
  | n :: ns =>
      if dentDelay s n ≠ INFINITE ∧ dentDelay s n ≤ sub32 (add32 st dl) (dentStart s n)
      then n :: tmrWalk s st dl e ns
      else e :: n :: ns

/-- priv_tmr_insert (oskernel.c 326-337): insert an entry into the
delayed/timer list, ordered by absolute wake time; an INFINITE entry skips
the walk and is spliced directly before the WAIT sentinel, i.e. at the end
of the linear list.  The entry's id is set to `k` (ID_DELAYED for tasks,
ID_TIMER for timers). -/
def priv_tmr_insert (s : Kern) (e : DEnt) (k : OKind) : Kern :=
  let lst :=
    if dentDelay s e = INFINITE then s.delayed ++ [e]
    else tmrWalk s (dentStart s e) (dentDelay s e) e s.delayed
  setDEntOid { s with delayed := lst } e k

/-- core_tmr_insert (oskernel.c 341-345): priv_tmr_insert plus
`port_tmr_force`, a port effect with no queue content. -/
def core_tmr_insert (s : Kern) (e : DEnt) (k : OKind) : Kern :=
  priv_tmr_insert s e k

/-- core_tmr_remove (oskernel.c 349-352) via priv_rdy_remove: unlink the
entry from the delayed list and set its id to ID_STOPPED. -/
def core_tmr_remove (s : Kern) (e : DEnt) : Kern :=
  setDEntOid { s with delayed := s.delayed.erase e } e .stopped

/-- core_tsk_wakeup (oskernel.c 210-220) for a definite (non-null) task:
core_tsk_unlink, core_tmr_remove, core_tsk_insert. -/
def core_tsk_wakeup (s : Kern) (t : Tid) (event : Nat) : Kern :=
  core_tsk_insert (core_tmr_remove (core_tsk_unlink s t event) (.task t)) t

/-- core_one_wakeup (oskernel.c 224-229): wake the head of the object's
waiters chain, if any; returns the woken task as C does. -/
def core_one_wakeup (s : Kern) (o : Oid) (event : Nat) : Option Tid × Kern :=
  match (s.waiters o).head? with
  | none => (none, s)
  | some t => (some t, core_tsk_wakeup s t event)

/-- The loop of core_all_wakeup (oskernel.c 233-238), with explicit fuel:
each iteration re-reads the head of the object's waiters chain and wakes
it; waking the head always shortens the chain by one, so fuel equal to the
initial chain length makes the model agree with the unbounded C loop.  The
trace records each woken task with the event code delivered and the task's
`start`/`delay` fields at the moment of waking. -/
def wakeLoopTr : Nat → Kern → Oid → Nat → Kern × List Ev
  | 0, s, _, _ => (s, [])
  | fuel + 1, s, o, ev =>
      match (s.waiters o).head? with
      | none => (s, [])
      | some t =>
          let e := Ev.wake t ev (s.tasks t).start (s.tasks t).delay
          let r := wakeLoopTr fuel (core_tsk_wakeup s t ev) o ev
          (r.1, e :: r.2)

/-- core_all_wakeup (oskernel.c 233-238): wake every waiter of the object
with the given event. -/
def core_all_wakeup (s : Kern) (o : Oid) (ev : Nat) : Kern × List Ev :=
  wakeLoopTr (s.waiters o).length s o ev

/-- priv_tsk_wait (oskernel.c 166-176): append the current task to the
object's waiters, remove it from the ready list, insert it into the
delayed list as ID_DELAYED, and request a context switch (a dispatch
effect with no queue content; the task is now suspended and its eventual
`event` is delivered by a later waker). -/
def priv_tsk_wait (s : Kern) (obj : Oid) : Kern :=
  let t := s.cur
  core_tmr_insert (core_tsk_remove (core_tsk_append s t obj) t) (.task t) .delayed

/-- core_tsk_waitFor (oskernel.c 195-206): record `start := Counter` and
`delay := delay`; with `delay == IMMEDIATE` return E_TIMEOUT at once
without suspending, otherwise suspend via priv_tsk_wait.  The first
component is `some code` when the call returns immediately and `none`
when the caller is suspended (its return value is the `event` a waker
will set). -/
def core_tsk_waitFor (s : Kern) (obj : Oid) (delay : Nat) : Option Nat × Kern :=
  let t := s.cur
  let r1 := { s.tasks t with start := s.counter, delay := delay }
  let s1 := { s with tasks := Function.update s.tasks t r1 }
  if delay = IMMEDIATE then (some E_TIMEOUT, s1)
  else (none, priv_tsk_wait s1 obj)

/-- core_tsk_waitUntil (oskernel.c 180-191): as core_tsk_waitFor but with
`delay := time - Counter` in unsigned arithmetic. -/
def core_tsk_waitUntil (s : Kern) (obj : Oid) (time : Nat) : Option Nat × Kern :=
  let t := s.cur
  let d := sub32 time s.counter
  let r1 := { s.tasks t with start := s.counter, delay := d }
  let s1 := { s with tasks := Function.update s.tasks t r1 }
  if d = IMMEDIATE then (some E_TIMEOUT, s1)
  else (none, priv_tsk_wait s1 obj)

/-- The mutex-chain loop of core_tsk_prio (oskernel.c 244-249): raise
`prio` to the priority of the head waiter of each held mutex that has
waiters. -/
def heldMax (s : Kern) (held : List Oid) (p : Nat) : Nat :=
  held.foldl
    (fun p m =>
      match (s.waiters m).head? with
      | some h => if p < (s.tasks h).prio then (s.tasks h).prio else p
      | none => p)
    p

/-- core_tsk_prio (oskernel.c 242-267): recompute the task's effective
priority as the maximum of the argument and the head-waiter priorities of
its held mutexes; when it changed, store it and restore ordering: a READY
task is removed and re-inserted into the ready list, a DELAYED task is
unlinked (with event 0) and re-appended to its guard object's waiters.
The function touches no other task. -/
def core_tsk_prio (s : Kern) (t : Tid) (prio : Nat) : Kern :=
  let p := heldMax s (s.tasks t).held prio
  if (s.tasks t).prio = p then s
  else
    let s1 := { s with tasks := Function.update s.tasks t { s.tasks t with prio := p } }
    match (s1.tasks t).oid with
    | .ready => core_tsk_insert (core_tsk_remove s1 t) t
    | .delayed =>
        let s2 := core_tsk_unlink s1 t 0
        match (s2.tasks t).guard with
        | some o => core_tsk_append s2 t o
        | none => s2
    | _ => s1

/-- priv_tmr_expired, the `#else` build (oskernel.c 383-392, the OS_ROBIN
= 0 default used together with core_tmr_handler from core_tsk_handler):
not expired when `tmr->delay >= Counter - tmr->start + 1` in unsigned
arithmetic, expired otherwise. -/
def priv_tmr_expired (counter start delay : Nat) : Bool :=
  if (sub32 counter start + 1) % w32 ≤ delay then false else true

/-- priv_tmr_expired, the OS_ROBIN && OS_TIMER build (oskernel.c 358-377):
an INFINITE entry never expires; otherwise the entry is expired when
`tmr->delay <= Counter - tmr->start` (the port compare-register calls in
between do not change the decision for a fixed Counter). -/
def priv_tmr_expired_robin (counter start delay : Nat) : Bool :=
  if delay = INFINITE then false
  else if delay ≤ sub32 counter start then true
  else if sub32 counter start < delay then false
  else true

/-- The expiry test applied to a delayed-list entry. -/
def dentExpired (s : Kern) (e : DEnt) : Bool :=
  priv_tmr_expired s.counter (dentStart s e) (dentDelay s e)

/-- The first two statements of priv_tmr_wakeup (oskernel.c 399-400):
`tmr->start += tmr->delay` (unsigned) and `tmr->delay = tmr->period`. -/
def tmrFieldsUpdate (s : Kern) (o : Oid) : Kern :=
  let t1 := { s.tmrs o with start := add32 (s.tmrs o).start (s.tmrs o).delay, delay := (s.tmrs o).period }
  { s with tmrs := Function.update s.tmrs o t1 }

/-- The requeue step of priv_tmr_wakeup (oskernel.c 405-407): remove the
timer from the delayed list and re-insert it as ID_TIMER if its (already
updated) delay is non-zero. -/
def tmrReQueue (s : Kern) (o : Oid) : Kern :=
  if ((core_tmr_remove s (.timer o)).tmrs o).delay ≠ 0
  then priv_tmr_insert (core_tmr_remove s (.timer o)) (.timer o) .timer
  else core_tmr_remove s (.timer o)

/-- priv_tmr_wakeup (oskernel.c 396-410): advance `start += delay`, set
`delay := period`, invoke the callback if present (modelled as a trace
event recording the timer's now-current `start`/`delay`, i.e. almost the
old start plus the old delay, and the period), remove the timer from the
delayed list, re-insert it as ID_TIMER if its delay is now non-zero, and
wake every task waiting on the timer object. -/
def priv_tmr_wakeup (s : Kern) (o : Oid) (ev : Nat) : Kern × List Ev :=
  ((core_all_wakeup (tmrReQueue (tmrFieldsUpdate s o) o) o ev).1,
   (if (s.tmrs o).hasCb then
      [Ev.cb o (add32 (s.tmrs o).start (s.tmrs o).delay) (s.tmrs o).period] else [])
   ++ (core_all_wakeup (tmrReQueue (tmrFieldsUpdate s o) o) o ev).2)

/-- core_tmr_handler (oskernel.c 414-430), with explicit fuel for the
while loop: as long as the head of the delayed list is expired, process
it — a ID_TIMER entry through priv_tmr_wakeup with E_SUCCESS, any other
(an ID_DELAYED task) through core_tsk_wakeup with E_TIMEOUT. -/
def core_tmr_handler : Nat → Kern → Kern × List Ev
  | 0, s => (s, [])
  | fuel + 1, s =>
      match s.delayed.head? with
      | none => (s, [])
      | some e =>
          if dentExpired s e then
            match e with
            | .timer o =>
                if (s.tmrs o).oid = .timer then
                  let r1 := priv_tmr_wakeup s o E_SUCCESS
                  let r2 := core_tmr_handler fuel r1.1
                  (r2.1, r1.2 ++ r2.2)
                else (s, [])
            | .task t =>
                if (s.tasks t).oid = .timer then (s, [])
                else
                  let e1 := Ev.wake t E_TIMEOUT (s.tasks t).start (s.tasks t).delay
                  let r2 := core_tmr_handler fuel (core_tsk_wakeup s t E_TIMEOUT)
                  (r2.1, e1 :: r2.2)
          else (s, [])

/-- The write loop of priv_msg_put (osmessagebuffer.c 166-178): store each
byte at the tail index, advancing cyclically (`if (i >= msg->limit) i =
0;` after the post-increment); returns the new storage and index. -/
def putLoop (limit : Nat) : List Nat → Nat → List Nat → List Nat × Nat
  | data, i, [] => (data, i)
  | data, i, b :: bs =>
      let i2 := if i + 1 ≥ limit then 0 else i + 1
      putLoop limit (data.set i b) i2 bs

/-- The read loop of priv_msg_get / priv_msg_peek (osmessagebuffer.c
107-117, 150-162): read `size` bytes starting at the given index,
advancing cyclically; returns the bytes and the final index. -/
def getLoop (limit : Nat) (data : List Nat) : Nat → Nat → List Nat × Nat
  | i, 0 => ([], i)
  | i, n + 1 =>
      let i2 := if i + 1 ≥ limit then 0 else i + 1
      let r := getLoop limit data i2 n
      (data.getD i 0 :: r.1, r.2)

/-- priv_msg_put (osmessagebuffer.c 166-178): append the bytes at the
tail of the ring and add their number to `count`. -/
def priv_msg_put (m : MsgB) (bytes : List Nat) : MsgB :=
  let r := putLoop m.limit m.data m.tail bytes
  { m with count := m.count + bytes.length, data := r.1, tail := r.2 }

/-- priv_msg_get (osmessagebuffer.c 150-162): read `size` bytes from the
head of the ring into the caller's buffer (returned), subtract `size`
from `count` (callers only invoke it with `size <= count`) and advance
the head. -/
def priv_msg_get (m : MsgB) (size : Nat) : MsgB × List Nat :=
  let r := getLoop m.limit m.data m.head size
  ({ m with count := m.count - size, head := r.2 }, r.1)

/-- priv_msg_peek (osmessagebuffer.c 107-117): read bytes from the head
of the ring without consuming them. -/
def priv_msg_peek (m : MsgB) (size : Nat) : List Nat :=
  (getLoop m.limit m.data m.head size).1

/-- The little-endian in-memory representation of an `unsigned`
(sizeof(unsigned) = 4 on the 32-bit target) as four bytes. -/
def enc4 (n : Nat) : List Nat :=
  [n % 256, n / 256 % 256, n / 256 ^ 2 % 256, n / 256 ^ 3 % 256]

/-- Reassemble an `unsigned` from its four little-endian bytes. -/
def dec4 (bs : List Nat) : Nat :=
  bs.getD 0 0 + bs.getD 1 0 * 256 + bs.getD 2 0 * 256 ^ 2 + bs.getD 3 0 * 256 ^ 3

/-- priv_msg_count (osmessagebuffer.c 120-130): the length prefix of the
first stored message (peeked from the head), or 0 on an empty buffer. -/
def priv_msg_count (m : MsgB) : Nat :=
  if m.count > 0 then dec4 (priv_msg_peek m 4) else m.count

/-- priv_msg_space (osmessagebuffer.c 133-138): free space for a new
message payload; 0 unless (the buffer is empty or has no waiters) and
`limit - count > sizeof(unsigned)`. -/
def priv_msg_space (s : Kern) : Nat :=
  if (s.msg.count = 0 ∨ s.waiters msgOid = []) ∧ 4 < s.msg.limit - s.msg.count
  then s.msg.limit - s.msg.count - 4 else 0

/-- priv_msg_limit (osmessagebuffer.c 141-146): the largest message the
buffer can ever hold. -/
def priv_msg_limit (m : MsgB) : Nat :=
  if 4 < m.limit then m.limit - 4 else 0

/-- priv_msg_getSize (osmessagebuffer.c 191-202): consume the 4-byte
length prefix from the head of the ring. -/
def priv_msg_getSize (m : MsgB) : MsgB × Nat :=
  let r := priv_msg_get m 4
  (r.1, dec4 r.2)

/-- priv_msg_putSize (osmessagebuffer.c 205-212): store the 4-byte length
prefix at the tail of the ring. -/
def priv_msg_putSize (m : MsgB) (size : Nat) : MsgB :=
  priv_msg_put m (enc4 size)

/-- The drain loop of priv_msg_putUpdate (osmessagebuffer.c 243-256),
with explicit fuel (each iteration wakes and thereby removes the head
waiter, so fuel equal to the initial queue length covers the C loop):
while the queue is non-empty, if the head waiter's requested size
(`tmp.msg.size`) is at least the stored message length, extract the
message into the waiter's buffer (`tmp.msg.data.in`, modelled by
`tmpIn`), decrease its `tmp.msg.size` by the message length and wake it
with E_SUCCESS; otherwise wake it with E_TIMEOUT. -/
def putUpdateLoop : Nat → Kern → Kern × List Ev
  | 0, s => (s, [])
  | fuel + 1, s =>
      match (s.waiters msgOid).head? with
      | none => (s, [])
      | some t =>
          if (s.tasks t).tmpSize ≥ priv_msg_count s.msg then
            let g1 := priv_msg_getSize s.msg
            let g2 := priv_msg_get g1.1 g1.2
            let r1 := { s.tasks t with tmpIn := g2.2, tmpSize := (s.tasks t).tmpSize - g1.2 }
            let s1 := { s with msg := g2.1, tasks := Function.update s.tasks t r1 }
            let e := Ev.wake t E_SUCCESS (s1.tasks t).start (s1.tasks t).delay
            let r := putUpdateLoop fuel (core_tsk_wakeup s1 t E_SUCCESS)
            (r.1, e :: r.2)
          else
            let e := Ev.wake t E_TIMEOUT (s.tasks t).start (s.tasks t).delay
            let r := putUpdateLoop fuel (core_tsk_wakeup s t E_TIMEOUT)
            (r.1, e :: r.2)

/-- priv_msg_putUpdate (osmessagebuffer.c 234-257): store the length
prefix and the message bytes in the ring, then drain the waiting
receivers. -/
def priv_msg_putUpdate (s : Kern) (bytes : List Nat) : Kern × List Ev :=
  let m1 := priv_msg_putSize s.msg bytes.length
  let m2 := priv_msg_put m1 bytes
  let s1 := { s with msg := m2 }
  putUpdateLoop (s1.waiters msgOid).length s1

/-- The drain loop of priv_msg_getUpdate (osmessagebuffer.c 222-229),
with explicit fuel: while the queue is non-empty and the head waiter (a
blocked sender) fits in the free space, store its pending message
(`tmp.msg.data.out`, modelled by `tmpOut`, of length `tmp.msg.size`),
zero its `tmp.msg.size` and wake it with E_SUCCESS. -/
def getUpdateLoop : Nat → Kern → Kern × List Ev
  | 0, s => (s, [])
  | fuel + 1, s =>
      match (s.waiters msgOid).head? with
      | none => (s, [])
      | some t =>
          if (s.tasks t).tmpSize ≤ priv_msg_space s then
            let m1 := priv_msg_putSize s.msg (s.tasks t).tmpSize
            let m2 := priv_msg_put m1 ((s.tasks t).tmpOut.take (s.tasks t).tmpSize)
            let r1 := { s.tasks t with tmpSize := 0 }
            let s1 := { s with msg := m2, tasks := Function.update s.tasks t r1 }
            let e := Ev.wake t E_SUCCESS (s1.tasks t).start (s1.tasks t).delay
            let r := getUpdateLoop fuel (core_tsk_wakeup s1 t E_SUCCESS)
            (r.1, e :: r.2)
          else (s, [])

/-- The result of a message-buffer call: the new kernel state, the trace
of wake events, the value returned to the caller (`none` when the caller
was suspended and its return count is computed only at resumption), and
the bytes delivered into the caller's own receive buffer. -/
structure MsgR where
  k   : Kern
  tr  : List Ev
  len : Option Nat
  out : List Nat

/-- priv_msg_getUpdate (osmessagebuffer.c 216-231): consume the length
prefix and the message from the ring, then drain blocked senders; returns
the message length and bytes. -/
def priv_msg_getUpdate (s : Kern) : MsgR :=
  let g1 := priv_msg_getSize s.msg
  let g2 := priv_msg_get g1.1 g1.2
  let s1 := { s with msg := g2.1 }
  let r := getUpdateLoop (s1.waiters msgOid).length s1
  { k := r.1, tr := r.2, len := some g1.2, out := g2.2 }

/-- priv_msg_wait (osmessagebuffer.c 282-311): if the buffer holds a
message that fits the caller's buffer, take it via priv_msg_getUpdate;
if the buffer is empty and `size > 0`, record the caller's buffer and
requested size in its `tmp.msg` scratch and suspend via the wait
function; on a non-suspending return the count is `size -
cur->tmp.msg.size`.  `untilM` selects core_tsk_waitUntil over
core_tsk_waitFor (the function-pointer argument). -/
def priv_msg_wait (s : Kern) (size : Nat) (time : Nat) (untilM : Bool) : MsgR :=
  if s.msg.count > 0 then
    if size ≥ priv_msg_count s.msg then priv_msg_getUpdate s
    else { k := s, tr := [], len := some 0, out := [] }
  else if size > 0 then
    let r1 := { s.tasks s.cur with tmpSize := size }
    let s1 := { s with tasks := Function.update s.tasks s.cur r1 }
    let w := if untilM then core_tsk_waitUntil s1 msgOid time
             else core_tsk_waitFor s1 msgOid time
    match w.1 with
    | some _ => { k := w.2, tr := [], len := some (size - (w.2.tasks s.cur).tmpSize), out := [] }
    | none => { k := w.2, tr := [], len := none, out := [] }
  else { k := s, tr := [], len := some 0, out := [] }

/-- msg_waitFor (osmessagebuffer.c 314-318). -/
def msg_waitFor (s : Kern) (size : Nat) (delay : Nat) : MsgR :=
  priv_msg_wait s size delay false

/-- msg_give (osmessagebuffer.c 328-347): the non-blocking (interrupt
mode) send; stores the message via priv_msg_putUpdate only when it fits
the free space, returning its length, and returns 0 otherwise. -/
def msg_give (s : Kern) (bytes : List Nat) : MsgR :=
  if bytes.length > 0 then
    if bytes.length ≤ priv_msg_space s then
      let r := priv_msg_putUpdate s bytes
      { k := r.1, tr := r.2, len := some bytes.length, out := [] }
    else { k := s, tr := [], len := some 0, out := [] }
  else { k := s, tr := [], len := some 0, out := [] }

/-- msg_kill (osmessagebuffer.c 76-91): zero `count`, `head` and `tail`,
then wake every waiter with E_STOPPED via core_all_wakeup. -/
def msg_kill (s : Kern) : Kern :=
  let s1 := { s with msg := { s.msg with count := 0, head := 0, tail := 0 } }
  (core_all_wakeup s1 msgOid E_STOPPED).1

/-- Modelled from the spec: the blocking branch of mutex `lock`
(osmutex.c is not under src/).  Spec section 4.7: "Else: `append(self,
mut)`; recompute `owner`'s effective priority (section 4.7.1);
`wait_for(mut, delay)`".  The append and the suspension are the kernel's
own core_tsk_waitFor path (priv_tsk_wait performs the append), and the
effective-priority recomputation of section 4.7.1 is the in-src
core_tsk_prio, invoked on the owner with the owner's basic priority once
the caller is enqueued. -/
def mtx_lock_block (s : Kern) (mu : Oid) (delay : Nat) : Kern :=
  let s1 := (core_tsk_waitFor s mu delay).2
  match s.owners mu with
  | some o => core_tsk_prio s1 o (s1.tasks o).basic
  | none => s1

/-- Claim C4's description of the ready-queue walk, stated as its own
definition for comparison with priv_tsk_insert: walk "while the
neighbour's priority is strictly greater than the task's priority" and
splice "before the first neighbour of equal or lower priority". -/
def specWalkInsert (prioOf : Tid → Nat) (p : Nat) (t : Tid) : List Tid → List Tid
  | [] => [t]
  | u :: us => if p < prioOf u then u :: specWalkInsert prioOf p t us else t :: u :: us

/-- The ready-list insertion claim C4 describes, built from
`specWalkInsert` over the same state as priv_tsk_insert. -/
def ready_insert_specWalk (s : Kern) (t : Tid) : List Tid :=
  specWalkInsert (fun u => (s.tasks u).prio) (s.tasks t).prio t s.ready

/-- The priority of the head waiter of an object (0 when there is none),
used to phrase the spec's `sup{head(m.waiters).prio : m in task.held}`. -/
def headPrio (s : Kern) (m : Oid) : Nat :=
  match (s.waiters m).head? with
  | some h => (s.tasks h).prio
  | none => 0

/-- The supremum of the head-waiter priorities over a held-mutex list. -/
def supHeads (s : Kern) (held : List Oid) : Nat :=
  (held.map (headPrio s)).foldr max 0

/-- An empty 16-byte message buffer. -/
def msg0 : MsgB :=
  { limit := 16, count := 0, head := 0, tail := 0, data := List.replicate 16 0 }

/-- Scenario S3 of the spec, mid-flight: T0 (id 0, basic 0) owns mutex M2
(id 12) and its effective priority was raised to 1 when T1 blocked on M2;
T1 (id 1, basic 1) owns M1 (id 11) and waits on M2 without deadline; T3
(id 3, priority 3) is current and about to lock M1. -/
def s3state : Kern :=
  { tasks := fun t =>
      if t = 0 then { TRec.zero with oid := .ready, prio := 1, basic := 0, held := [12] }
      else if t = 1 then { TRec.zero with oid := .delayed, prio := 1, basic := 1 , guard := some 12, held := [11], delay := INFINITE }
      else if t = 3 then { TRec.zero with oid := .ready, prio := 3, basic := 3 }
      else TRec.zero
  , tmrs := fun _ => TmrRec.zero
  , owners := fun o => if o = 11 then some 1 else if o = 12 then some 0 else none
  , waiters := fun o => if o = 12 then [1] else []
  , ready := [3, 0]
  , delayed := [.task 1]
  , msg := msg0
  , counter := 0
  , cur := 3 }

/-- Scenario S3 after T3's blocking lock of M1. -/
def s3after : Kern := mtx_lock_block s3state 11 100

/-- A state with one task (id 3, priority 2) blocked on object 5, its
`guard` pointing back at the object. -/
def wakeState : Kern :=
  { tasks := fun t =>
      if t = 3 then { TRec.zero with oid := .delayed, prio := 2, guard := some 5 }
      else TRec.zero
  , tmrs := fun _ => TmrRec.zero
  , owners := fun _ => none
  , waiters := fun o => if o = 5 then [3] else []
  , ready := []
  , delayed := [.task 3]
  , msg := msg0
  , counter := 0
  , cur := 0 }

/-- A state with an empty message buffer and task 1 blocked receiving
into a 2-byte buffer (`tmp.msg.size = 2`) with a 100-tick deadline that
has not been reached (Counter = start = 0). -/
def smallRecvState : Kern :=
  { tasks := fun t =>
      if t = 1 then { TRec.zero with oid := .delayed, prio := 1, guard := some msgOid , start := 0, delay := 100, tmpSize := 2 }
      else TRec.zero
  , tmrs := fun _ => TmrRec.zero
  , owners := fun _ => none
  , waiters := fun o => if o = msgOid then [1] else []
  , ready := []
  , delayed := [.task 1]
  , msg := msg0
  , counter := 0
  , cur := 0 }

/-- The bytes of the 5-byte message "hello". -/
def hello : List Nat := [104, 101, 108, 108, 111]

/-- A ready list holding one task of priority 2 (id 1), with a second
task of the same priority 2 (id 2) about to be inserted. -/
def tieState : Kern :=
  { tasks := fun t =>
      if t = 1 then { TRec.zero with oid := .ready, prio := 2 }
      else if t = 2 then { TRec.zero with prio := 2 }
      else TRec.zero
  , tmrs := fun _ => TmrRec.zero
  , owners := fun _ => none
  , waiters := fun _ => []
  , ready := [1]
  , delayed := []
  , msg := msg0
  , counter := 0
  , cur := 0 }

/-- A periodic timer (id 20, start 0, delay 5, period 7, with a callback)
heading the delayed list, already expired at Counter = 10, with task 2
waiting on the timer object. -/
def tmrState : Kern :=
  { tasks := fun t =>
      if t = 2 then { TRec.zero with oid := .delayed, prio := 1, guard := some 20 , delay := INFINITE }
      else TRec.zero
  , tmrs := fun o =>
      if o = 20 then { oid := .timer, start := 0, delay := 5, period := 7, hasCb := true }
      else TmrRec.zero
  , owners := fun _ => none
  , waiters := fun o => if o = 20 then [2] else []
  , ready := []
  , delayed := [.timer 20]
  , msg := msg0
  , counter := 10
  , cur := 0 }

/-- A delayed task (id 5) heading the delayed list, expired at Counter =
10 (start 0, delay 5). -/
def delayedTaskState : Kern :=
  { tasks := fun t =>
      if t = 5 then { TRec.zero with oid := .delayed, prio := 1, guard := some 30 , start := 0, delay := 5 }
      else TRec.zero
  , tmrs := fun _ => TmrRec.zero
  , owners := fun _ => none
  , waiters := fun o => if o = 30 then [5] else []
  , ready := []
  , delayed := [.task 5]
  , msg := msg0
  , counter := 10
  , cur := 0 }

/-- Scenario S6: an idle system whose current task (id 1, priority 2) is
about to call a blocking receive on the empty message buffer. -/
def rvState : Kern :=
  { tasks := fun t =>
      if t = 1 then { TRec.zero with oid := .ready, prio := 2, basic := 2 }
      else TRec.zero
  , tmrs := fun _ => TmrRec.zero
  , owners := fun _ => none
  , waiters := fun _ => []
  , ready := [1]
  , delayed := []
  , msg := msg0
  , counter := 0
  , cur := 1 }

/-- Scenario S6 after T1 blocked in `recv(B, buf, 64)` with a 1000-tick
deadline. -/
def rvBlocked : Kern := (msg_waitFor rvState 64 1000).k

/-- Scenario S6 outcome: the interrupt-mode `send(B, "hello", 5)`
delivered into the blocked receiver. -/
def rvSend : MsgR := msg_give rvBlocked hello

/-- A message buffer holding one stored message ("ab" behind its 4-byte
length prefix) with a blocked sender (task 3, pending 6-byte message),
exercising the count-and-waiters branch of priv_msg_space. -/
def fullState : Kern :=
  { tasks := fun t =>
      if t = 3 then { TRec.zero with oid := .delayed, prio := 1, guard := some msgOid , tmpSize := 6, tmpOut := [65, 66, 67, 68, 69, 70] }
      else TRec.zero
  , tmrs := fun _ => TmrRec.zero
  , owners := fun _ => none
  , waiters := fun o => if o = msgOid then [3] else []
  , ready := []
  , delayed := [.task 3]
  , msg := { limit := 16, count := 6, head := 0, tail := 6
           , data := [2, 0, 0, 0, 97, 98, 0, 0, 0, 0, 0, 0, 0, 0, 0, 0] }
  , counter := 0
  , cur := 0 }

theorem sub32_self (c : Nat) : sub32 c c = 0 := by
  simp [sub32]

/-- C7: a `wait_for` with delay IMMEDIATE (= 0) and a `wait_until` with
the current Counter as target both return TIMEOUT immediately without
suspending the caller, and leave the ready list, the delayed list and
every waiters list unchanged (only the caller's `start`/`delay` fields
are written). -/
theorem wait_immediate_polls (s : Kern) (obj : Oid) :
    (core_tsk_waitFor s obj IMMEDIATE).1 = some E_TIMEOUT ∧
    (core_tsk_waitFor s obj IMMEDIATE).2.ready = s.ready ∧
    (core_tsk_waitFor s obj IMMEDIATE).2.delayed = s.delayed ∧
    (core_tsk_waitFor s obj IMMEDIATE).2.waiters = s.waiters ∧
    (core_tsk_waitUntil s obj s.counter).1 = some E_TIMEOUT ∧
    (core_tsk_waitUntil s obj s.counter).2.ready = s.ready ∧
    (core_tsk_waitUntil s obj s.counter).2.delayed = s.delayed ∧
    (core_tsk_waitUntil s obj s.counter).2.waiters = s.waiters := by
  refine ⟨?_, ?_, ?_, ?_, ?_, ?_, ?_, ?_⟩ <;>
    simp [core_tsk_waitFor, core_tsk_waitUntil, IMMEDIATE, sub32_self]

theorem mem_prioInsert (f : Tid → Nat) (p : Nat) (t : Tid) (l : List Tid) (u : Tid) :
    u ∈ prioInsert f p t l ↔ u = t ∨ u ∈ l := by
  induction l with
  | nil => simp [prioInsert]
  | cons a as ih =>
      by_cases h : p ≤ f a
      · simp [prioInsert, h, ih]
        tauto
      · simp [prioInsert, h]

theorem prioInsert_eq_take_drop (f : Tid → Nat) (p : Nat) (t : Tid) (l : List Tid) :
    prioInsert f p t l
      = l.takeWhile (fun u => decide (p ≤ f u)) ++ t :: l.dropWhile (fun u => decide (p ≤ f u)) := by
  induction l with
  | nil => rfl
  | cons a as ih =>
      by_cases h : p ≤ f a
      · simp [prioInsert, h, List.takeWhile_cons, List.dropWhile_cons, ih]
      · simp [prioInsert, h, List.takeWhile_cons, List.dropWhile_cons]

theorem prioInsert_zero (f : Tid → Nat) (t : Tid) (l : List Tid) :
    prioInsert f 0 t l = l ++ [t] := by
  induction l with
  | nil => rfl
  | cons a as ih => simp [prioInsert, Nat.zero_le, ih]

/-- The ready list produced by priv_tsk_insert is the priority walk in
both branches (the priority-0 shortcut of the C code lands at the same
place the general walk would). -/
theorem priv_tsk_insert_ready (s : Kern) (t : Tid) :
    (priv_tsk_insert s t).ready
      = prioInsert (fun u => (s.tasks u).prio) (s.tasks t).prio t s.ready := by
  unfold priv_tsk_insert
  by_cases h : (s.tasks t).prio = 0
  · simp [h, prioInsert_zero]
  · simp [h]

theorem prioInsert_sorted (f : Tid → Nat) (t : Tid) (l : List Tid)
    (hs : (l.map f).Sorted (· ≥ ·)) :
    ((prioInsert f (f t) t l).map f).Sorted (· ≥ ·) := by
  induction l with
  | nil => simp [prioInsert]
  | cons a as ih =>
      rw [List.map_cons, List.sorted_cons] at hs
      by_cases h : f t ≤ f a
      · have hrec := ih hs.2
        simp only [prioInsert, h, if_pos, List.map_cons, List.sorted_cons]
        refine ⟨?_, hrec⟩
        intro b hb
        rw [List.mem_map] at hb
        obtain ⟨u, hu, rfl⟩ := hb
        rw [mem_prioInsert] at hu
        rcases hu with rfl | hu
        · exact h
        · exact hs.1 (f u) (List.mem_map_of_mem f hu)
      · simp only [prioInsert, h, if_neg, not_false_iff, List.map_cons, List.sorted_cons]
        refine ⟨?_, hs.1, hs.2⟩
        intro b hb
        rcases List.mem_cons.mp hb with rfl | hb
        · exact Nat.le_of_not_le h
        · exact le_trans (hs.1 b hb) (Nat.le_of_not_le h)

theorem dropWhile_lt (f : Tid → Nat) (p : Nat) (l : List Tid)
    (hs : (l.map f).Sorted (· ≥ ·)) :
    ∀ u ∈ l.dropWhile (fun u => decide (p ≤ f u)), f u < p := by
  induction l with
  | nil => simp [List.dropWhile]
  | cons a as ih =>
      rw [List.map_cons, List.sorted_cons] at hs
      by_cases h : p ≤ f a
      · simp only [List.dropWhile_cons, h, decide_eq_true_eq, if_pos]
        exact ih hs.2
      · rw [List.dropWhile_cons, if_neg (by simpa using h)]
        intro u hu
        rcases List.mem_cons.mp hu with rfl | hu
        · exact Nat.lt_of_not_le h
        · exact Nat.lt_of_le_of_lt (hs.1 (f u) (List.mem_map_of_mem f hu)) (Nat.lt_of_not_le h)

/-- C4, amended: priv_tsk_insert walks the ready list while the
neighbour's priority is greater than **or equal to** the task's priority
(`tsk->prio <= nxt->prio` continues the loop) and splices the task before
the first strictly lower-priority neighbour: the result is the maximal
all-at-least-its-priority prefix, then the task, then the rest.  Hence
FIFO: every already-ready task of equal priority stays ahead of the
newcomer; and on a priority-descending ready list the result is again
priority-descending and still ends in IDLE (priority 0). -/
theorem priv_tsk_insert_sorted_fifo (s : Kern) (t : Tid)
    (hs : (s.ready.map fun u => (s.tasks u).prio).Sorted (· ≥ ·)) :
    (priv_tsk_insert s t).ready
        = s.ready.takeWhile (fun u => decide ((s.tasks t).prio ≤ (s.tasks u).prio))
          ++ t :: s.ready.dropWhile (fun u => decide ((s.tasks t).prio ≤ (s.tasks u).prio)) ∧
    (∀ u ∈ s.ready.takeWhile (fun u => decide ((s.tasks t).prio ≤ (s.tasks u).prio)),
        (s.tasks t).prio ≤ (s.tasks u).prio) ∧
    (∀ u ∈ s.ready.dropWhile (fun u => decide ((s.tasks t).prio ≤ (s.tasks u).prio)),
        (s.tasks u).prio < (s.tasks t).prio) ∧
    (∀ u ∈ s.ready, (s.tasks u).prio = (s.tasks t).prio →
        u ∈ s.ready.takeWhile (fun u => decide ((s.tasks t).prio ≤ (s.tasks u).prio))) ∧
    ((((priv_tsk_insert s t).ready.map fun u => (s.tasks u).prio) ++ [0]).Sorted (· ≥ ·)) := by
  have hchar := prioInsert_eq_take_drop (fun u => (s.tasks u).prio) (s.tasks t).prio t s.ready
  have hdrop := dropWhile_lt (fun u => (s.tasks u).prio) (s.tasks t).prio s.ready hs
  refine ⟨by rw [priv_tsk_insert_ready, hchar], ?_, hdrop, ?_, ?_⟩
  · intro u hu
    simpa using List.mem_takeWhile_imp hu
  · intro u hu he
    have := List.takeWhile_append_dropWhile
      (p := fun u => decide ((s.tasks t).prio ≤ (s.tasks u).prio)) (l := s.ready)
    rw [← this, List.mem_append] at hu
    rcases hu with hu | hu
    · exact hu
    · have hlt : (s.tasks u).prio < (s.tasks t).prio := hdrop u hu
      omega
  · have hsorted : (((priv_tsk_insert s t).ready.map fun u => (s.tasks u).prio)).Sorted (· ≥ ·) := by
      rw [priv_tsk_insert_ready]
      exact prioInsert_sorted (fun u => (s.tasks u).prio) t s.ready hs
    exact List.pairwise_append.mpr ⟨hsorted, List.sorted_singleton 0, fun a _ b hb => by
      simp only [List.mem_singleton] at hb
      omega⟩

/-- C4, counterexample: with one ready task of priority 2 (id 1) and a
newcomer of the same priority 2 (id 2), the code places the newcomer
after the incumbent, while the walk the claim describes ("while the
neighbour's priority is strictly greater..., splice before the first
neighbour of equal or lower priority") would place it before — so the
claim's description of the walk is false of the code (and contradicts
the FIFO behaviour the code actually has). -/
theorem ready_insert_walk_cex :
    (priv_tsk_insert tieState 2).ready = [1, 2] ∧
    ready_insert_specWalk tieState 2 = [2, 1] := by
  decide

/-- C4, witness for the amended theorem at the concrete tie state. -/
theorem priv_tsk_insert_sorted_fifo_witness :
    ((tieState.ready.map fun u => (tieState.tasks u).prio).Sorted (· ≥ ·)) ∧
    (priv_tsk_insert tieState 2).ready
        = tieState.ready.takeWhile
            (fun u => decide ((tieState.tasks 2).prio ≤ (tieState.tasks u).prio))
          ++ 2 :: tieState.ready.dropWhile
            (fun u => decide ((tieState.tasks 2).prio ≤ (tieState.tasks u).prio)) :=
  ⟨by decide, (priv_tsk_insert_sorted_fifo tieState 2 (by decide)).1⟩

/-- C2, amended: waking the head `t` of an object's waiters list unlinks
`t` from the list, sets `t.event` to the given event value, and leaves
`t.guard` unchanged — still pointing at the object; the C code nulls the
task's own `obj.queue` successor link, not `guard`. -/
theorem core_one_wakeup_head_spec (s : Kern) (o : Oid) (ev : Nat) (t : Tid) (rest : List Tid)
    (hw : s.waiters o = t :: rest) :
    (core_one_wakeup s o ev).1 = some t ∧
    (core_one_wakeup s o ev).2.waiters o = rest ∧
    ((core_one_wakeup s o ev).2.tasks t).event = ev ∧
    ((core_one_wakeup s o ev).2.tasks t).guard = (s.tasks t).guard := by
  have hh : (s.waiters o).head? = some t := by rw [hw]; rfl
  simp only [core_one_wakeup, hh]
  unfold core_tsk_wakeup core_tsk_insert priv_tsk_insert core_tmr_remove setDEntOid
    core_tsk_unlink
  simp [hw, Function.update_same, List.erase_cons_head]

/-- C2, counterexample: task 3 is the head waiter of object 5 with
`guard = some 5`; after core_one_wakeup the guard field is still
`some 5`, not null — refuting the claim that waking "clears the task's
guard field (sets it to null)". -/
theorem wakeup_guard_not_cleared_cex :
    wakeState.waiters 5 = [3] ∧
    (wakeState.tasks 3).guard = some 5 ∧
    ((core_one_wakeup wakeState 5 9).2.tasks 3).guard = some 5 := by
  decide

/-- C2, witness for the amended theorem at the concrete one-waiter state. -/
theorem core_one_wakeup_head_spec_witness :
    wakeState.waiters 5 = [3] ∧
    ((core_one_wakeup wakeState 5 9).2.tasks 3).event = 9 :=
  ⟨by decide, (core_one_wakeup_head_spec wakeState 5 9 3 [] (by decide)).2.2.1⟩

/-- C5, counterexample: in the default (`#else`) build of
priv_tmr_expired, at Counter = 0 with an entry started at tick 1 with
delay 5 (so `Counter - start = 2^32 - 1` after wrap), the unsigned
predicate `delay <= Counter - start` holds and `delay < 2^31`, yet the
expiry test reports not-expired — the test is not exactly the claimed
predicate. -/
theorem tmr_expired_wrap_cex :
    priv_tmr_expired 0 1 5 = false ∧
    5 ≤ sub32 0 1 ∧
    5 < 2 ^ 31 ∧
    (5 : Nat) ≠ INFINITE := by
  refine ⟨by decide, by decide, by decide, by decide⟩

/-- C5, amended: the OS_ROBIN build of priv_tmr_expired returns true
exactly when `delay` is not INFINITE and `delay <= Counter - start`
(unsigned); the default build returns true exactly when
`delay <= Counter - start` **and** `Counter - start` is not `2^32 - 1`
(at that single wrap point it reports not-expired for every delay); an
INFINITE entry is never reported expired by either build. -/
theorem tmr_expired_characterization (counter start delay : Nat)
    (_hc : counter < w32) (_hst : start < w32) :
    (priv_tmr_expired_robin counter start delay = true ↔
       delay ≠ INFINITE ∧ delay ≤ sub32 counter start) ∧
    (priv_tmr_expired counter start delay = true ↔
       delay ≤ sub32 counter start ∧ sub32 counter start ≠ w32 - 1) ∧
    priv_tmr_expired_robin counter start INFINITE = false ∧
    priv_tmr_expired counter start INFINITE = false := by
  have hw : w32 = 4294967296 := by norm_num [w32]
  have hX : sub32 counter start < w32 := by
    have : 0 < w32 := by omega
    exact Nat.mod_lt _ this
  refine ⟨?_, ?_, ?_, ?_⟩
  · unfold priv_tmr_expired_robin
    split_ifs with h1 h2 h3
    · simp [h1]
    · simp [h1, h2]
    · simp only [Bool.false_eq_true, false_iff]
      intro hcon
      omega
    · omega
  · unfold priv_tmr_expired
    by_cases hx : sub32 counter start = w32 - 1
    · have h1 : (sub32 counter start + 1) % w32 = 0 := by
        have h2 : sub32 counter start + 1 = w32 := by omega
        rw [h2, Nat.mod_self]
      rw [h1, if_pos (Nat.zero_le delay)]
      simp [hx]
    · have hlt : sub32 counter start + 1 < w32 := by omega
      rw [Nat.mod_eq_of_lt hlt]
      split_ifs with h
      · simp only [Bool.false_eq_true, false_iff]
        intro hcon
        omega
      · simp only [true_iff]
        exact ⟨by omega, hx⟩
  · simp [priv_tmr_expired_robin]
  · unfold priv_tmr_expired
    have hmod : (sub32 counter start + 1) % w32 < w32 := by
      have : 0 < w32 := by omega
      exact Nat.mod_lt _ this
    rw [if_pos (by unfold INFINITE; omega)]

/-- C5, witness for the amended theorem at small in-range values. -/
theorem tmr_expired_characterization_witness :
    (5 : Nat) < w32 ∧
    (priv_tmr_expired 5 3 2 = true ↔ (2 ≤ sub32 5 3 ∧ sub32 5 3 ≠ w32 - 1)) :=
  ⟨by decide, (tmr_expired_characterization 5 3 2 (by decide) (by decide)).2.1⟩

/-- C10: with bytes already stored (`count > 0`) and a non-empty waiters
queue (a blocked sender), the non-blocking msg_give returns 0 and leaves
the whole state untouched, for every non-empty message — in particular
even when `limit - count - sizeof(unsigned)` bytes would suffice — and,
whenever `limit - count > sizeof(unsigned)`, the reported free space is 0
exactly when `count > 0` and the waiters queue is non-empty. -/
theorem msg_give_blocked_spec :
    (∀ s bytes, s.msg.count ≠ 0 → s.waiters msgOid ≠ [] → bytes ≠ ([] : List Nat) →
       (msg_give s bytes).len = some 0 ∧ (msg_give s bytes).k = s ∧ priv_msg_space s = 0) ∧
    (∀ s : Kern, 4 < s.msg.limit - s.msg.count →
       (priv_msg_space s = 0 ↔ (s.msg.count ≠ 0 ∧ s.waiters msgOid ≠ []))) := by
  constructor
  · intro s bytes h1 h2 h3
    have hsp : priv_msg_space s = 0 := by
      unfold priv_msg_space
      rw [if_neg]
      intro hcon
      rcases hcon.1 with hc | hc
      · exact h1 hc
      · exact h2 hc
    have hlen : 0 < bytes.length := List.length_pos.mpr h3
    unfold msg_give
    rw [hsp, if_pos hlen, if_neg (by omega)]
    exact ⟨rfl, rfl, rfl⟩
  · intro s hfree
    unfold priv_msg_space
    by_cases hd : s.msg.count = 0 ∨ s.waiters msgOid = []
    · rw [if_pos ⟨hd, hfree⟩]
      constructor
      · intro h0
        omega
      · intro hcon
        rcases hd with hc | hc
        · exact absurd hc hcon.1
        · exact absurd hc hcon.2
    · rw [if_neg (fun hcon => hd hcon.1)]
      push_neg at hd
      simp [hd.1, hd.2]

/-- C10, witness at the concrete blocked-sender state (count 6, limit 16,
free space 6 would have sufficed for the 2-byte message). -/
theorem msg_give_blocked_spec_witness :
    ((msg_give fullState [1, 2]).len = some 0 ∧
     (msg_give fullState [1, 2]).k = fullState ∧
     priv_msg_space fullState = 0) ∧
    (priv_msg_space fullState = 0 ↔
       (fullState.msg.count ≠ 0 ∧ fullState.waiters msgOid ≠ [])) :=
  ⟨msg_give_blocked_spec.1 fullState [1, 2] (by decide) (by decide) (by decide),
   msg_give_blocked_spec.2 fullState (by decide)⟩

/-- C8, counterexample: the rendezvous itself succeeds (T1 is woken with
SUCCESS and gets "hello"), but bytes of the message **are** written into
B's internal ring storage during the transfer — the ring data differs
from its pristine all-zero state afterwards — refuting the "no copy
through B's internal storage occurred" part of the scenario. -/
theorem msg_rendezvous_internal_copy_cex :
    rvBlocked.msg.count = 0 ∧
    rvBlocked.waiters msgOid = [1] ∧
    rvSend.len = some 5 ∧
    (rvSend.k.tasks 1).event = E_SUCCESS ∧
    rvSend.k.msg.data ≠ msg0.data := by
  decide

/-- C8, amended: with buffer B empty and task 1 blocked in a receive of
up to 64 bytes, a send of the 5-byte message "hello" wakes task 1 with
SUCCESS, the receive returns length 5 with the caller's buffer holding
exactly "hello", and B ends empty (count 0, head = tail) — but the
message travels through B's internal ring: the 4-byte length prefix and
the payload are stored at ring positions 0..8 and then drained into the
receiver. -/
theorem msg_rendezvous_s6 :
    rvBlocked.msg.count = 0 ∧
    rvBlocked.waiters msgOid = [1] ∧
    rvSend.len = some 5 ∧
    (rvSend.k.tasks 1).event = E_SUCCESS ∧
    (1 : Tid) ∈ rvSend.k.ready ∧
    (rvSend.k.tasks 1).tmpIn = hello ∧
    64 - (rvSend.k.tasks 1).tmpSize = 5 ∧
    rvSend.k.msg.count = 0 ∧
    rvSend.k.msg.head = rvSend.k.msg.tail ∧
    rvSend.k.msg.data = [5, 0, 0, 0, 104, 101, 108, 108, 111, 0, 0, 0, 0, 0, 0, 0] := by
  decide

theorem tasks_prio_core_tsk_remove (s : Kern) (t u : Tid) :
    ((core_tsk_remove s t).tasks u).prio = (s.tasks u).prio := by
  unfold core_tsk_remove
  by_cases h : u = t
  · subst h; simp [Function.update_same]
  · simp [Function.update_noteq h]

theorem tasks_prio_core_tsk_insert (s : Kern) (t u : Tid) :
    ((core_tsk_insert s t).tasks u).prio = (s.tasks u).prio := by
  unfold core_tsk_insert priv_tsk_insert
  by_cases h : u = t
  · subst h; simp [Function.update_same]
  · simp [Function.update_noteq h]

theorem tasks_prio_core_tsk_unlink (s : Kern) (t : Tid) (ev : Nat) (u : Tid) :
    ((core_tsk_unlink s t ev).tasks u).prio = (s.tasks u).prio := by
  unfold core_tsk_unlink
  by_cases h : u = t
  · subst h; simp [Function.update_same]
  · simp [Function.update_noteq h]

theorem tasks_guard_core_tsk_unlink (s : Kern) (t : Tid) (ev : Nat) (u : Tid) :
    ((core_tsk_unlink s t ev).tasks u).guard = (s.tasks u).guard := by
  unfold core_tsk_unlink
  by_cases h : u = t
  · subst h; simp [Function.update_same]
  · simp [Function.update_noteq h]

theorem tasks_prio_core_tsk_append (s : Kern) (t : Tid) (o : Oid) (u : Tid) :
    ((core_tsk_append s t o).tasks u).prio = (s.tasks u).prio := by
  unfold core_tsk_append
  by_cases h : u = t
  · subst h; simp [Function.update_same]
  · simp [Function.update_noteq h]

theorem heldMax_step (s : Kern) (p : Nat) (m : Oid) :
    (match (s.waiters m).head? with
      | some h => if p < (s.tasks h).prio then (s.tasks h).prio else p
      | none => p) = max p (headPrio s m) := by
  cases h : (s.waiters m).head? with
  | none => simp [headPrio, h]
  | some v =>
      simp only [headPrio, h]
      split_ifs with hlt <;> omega

theorem heldMax_eq (s : Kern) (held : List Oid) (p : Nat) :
    heldMax s held p = max p (supHeads s held) := by
  induction held generalizing p with
  | nil => simp [heldMax, supHeads]
  | cons m ms ih =>
      have hstep :
          heldMax s (m :: ms) p
            = heldMax s ms (match (s.waiters m).head? with
                | some h => if p < (s.tasks h).prio then (s.tasks h).prio else p
                | none => p) := rfl
      rw [hstep, heldMax_step, ih]
      have hsup : supHeads s (m :: ms) = max (headPrio s m) (supHeads s ms) := rfl
      rw [hsup]
      omega

/-- C1, amended: core_tsk_prio(t, p) establishes the single-task
equation — afterwards t's effective priority is
`max(p, sup{head(m.waiters).prio : m in t.held})` — and repositions t in
its ready or waiters list, but it recomputes no other task's priority: in
particular it does not propagate along the held-mutex chain to the owner
of the mutex t itself waits on (so in scenario S3, T1's priority becomes
3 while T0's remains 1). -/
theorem core_tsk_prio_local (s : Kern) (t : Tid) (p : Nat) :
    ((core_tsk_prio s t p).tasks t).prio = max p (supHeads s (s.tasks t).held) ∧
    (∀ u, u ≠ t → ((core_tsk_prio s t p).tasks u).prio = (s.tasks u).prio) := by
  unfold core_tsk_prio
  rw [heldMax_eq]
  by_cases h : (s.tasks t).prio = max p (supHeads s (s.tasks t).held)
  · rw [if_pos h]
    exact ⟨h, fun u _ => rfl⟩
  · rw [if_neg h]
    simp only [Function.update_same]
    constructor
    · split
      · rw [tasks_prio_core_tsk_insert, tasks_prio_core_tsk_remove]
        simp [Function.update_same]
      · rw [tasks_guard_core_tsk_unlink]
        simp only [Function.update_same]
        split
        · rw [tasks_prio_core_tsk_append, tasks_prio_core_tsk_unlink]
          simp [Function.update_same]
        · rw [tasks_prio_core_tsk_unlink]
          simp [Function.update_same]
      · simp [Function.update_same]
    · intro u hu
      split
      · rw [tasks_prio_core_tsk_insert, tasks_prio_core_tsk_remove]
        simp [Function.update_noteq hu]
      · rw [tasks_guard_core_tsk_unlink]
        simp only [Function.update_same]
        split
        · rw [tasks_prio_core_tsk_append, tasks_prio_core_tsk_unlink]
          simp [Function.update_noteq hu]
        · rw [tasks_prio_core_tsk_unlink]
          simp [Function.update_noteq hu]
      · simp [Function.update_noteq hu]

/-- C1, counterexample (scenario S3): T1 (basic 1) holds M1 and waits on
M2 held by T0 (basic 0, priority raised to 1 when T1 blocked); when T3
(priority 3) locks M1 — the spec-modelled lock enqueues T3 and recomputes
the owner's priority through the in-src core_tsk_prio — T1's priority
becomes 3, but T0's priority stays 1 although the claimed invariant
requires max(T0.basic, head(M2.waiters).prio) = max(0, 3) = 3 (and S3
demands T0 = 3): the recomputation does not propagate along the
held-mutex chain. -/
theorem prio_no_propagation_cex :
    (s3after.tasks 1).prio = 3 ∧
    (s3after.tasks 0).prio = 1 ∧
    max (s3after.tasks 0).basic (headPrio s3after 12) = 3 := by
  decide

/-- C1, witness for the amended theorem at the S3 pre-state. -/
theorem core_tsk_prio_local_witness :
    ((core_tsk_prio s3state 1 1).tasks 1).prio
        = max 1 (supHeads s3state (s3state.tasks 1).held) ∧
    ((core_tsk_prio s3state 1 1).tasks 0).prio = (s3state.tasks 0).prio :=
  ⟨(core_tsk_prio_local s3state 1 1).1,
   (core_tsk_prio_local s3state 1 1).2 0 (by decide)⟩

theorem wakeup_waiters (s : Kern) (t : Tid) (ev : Nat) :
    (core_tsk_wakeup s t ev).waiters = fun o => (s.waiters o).erase t := rfl

theorem wakeup_msg (s : Kern) (t : Tid) (ev : Nat) :
    (core_tsk_wakeup s t ev).msg = s.msg := rfl

theorem wakeup_counter (s : Kern) (t : Tid) (ev : Nat) :
    (core_tsk_wakeup s t ev).counter = s.counter := rfl

theorem wakeup_tmrs (s : Kern) (t : Tid) (ev : Nat) :
    (core_tsk_wakeup s t ev).tmrs = s.tmrs := rfl

theorem wakeup_delayed (s : Kern) (t : Tid) (ev : Nat) :
    (core_tsk_wakeup s t ev).delayed = s.delayed.erase (.task t) := rfl

theorem wakeup_event_self (s : Kern) (t : Tid) (ev : Nat) :
    ((core_tsk_wakeup s t ev).tasks t).event = ev := by
  unfold core_tsk_wakeup core_tsk_insert priv_tsk_insert core_tmr_remove setDEntOid
    core_tsk_unlink
  simp [Function.update_same]

theorem wakeup_tasks_noteq (s : Kern) (t : Tid) (ev : Nat) (u : Tid) (h : u ≠ t) :
    (core_tsk_wakeup s t ev).tasks u = s.tasks u := by
  unfold core_tsk_wakeup core_tsk_insert priv_tsk_insert core_tmr_remove setDEntOid
    core_tsk_unlink
  simp [Function.update_noteq h]

theorem wakeup_ready_self (s : Kern) (t : Tid) (ev : Nat) :
    t ∈ (core_tsk_wakeup s t ev).ready := by
  have hr : (core_tmr_remove (core_tsk_unlink s t ev) (DEnt.task t)).ready = s.ready := rfl
  show t ∈ (core_tsk_insert (core_tmr_remove (core_tsk_unlink s t ev) (DEnt.task t)) t).ready
  unfold core_tsk_insert priv_tsk_insert
  by_cases h : ((core_tmr_remove (core_tsk_unlink s t ev) (DEnt.task t)).tasks t).prio = 0
  · simp [h]
  · simp [h, mem_prioInsert]

theorem wakeup_ready_mono (s : Kern) (t : Tid) (ev : Nat) (u : Tid) (h : u ∈ s.ready) :
    u ∈ (core_tsk_wakeup s t ev).ready := by
  have hr : (core_tmr_remove (core_tsk_unlink s t ev) (DEnt.task t)).ready = s.ready := rfl
  show u ∈ (core_tsk_insert (core_tmr_remove (core_tsk_unlink s t ev) (DEnt.task t)) t).ready
  unfold core_tsk_insert priv_tsk_insert
  by_cases hz : ((core_tmr_remove (core_tsk_unlink s t ev) (DEnt.task t)).tasks t).prio = 0
  · simp only [hz, if_pos]
    rw [hr]
    exact List.mem_append_left _ h
  · simp only [hz, if_neg, not_false_iff, mem_prioInsert]
    right
    rw [hr]
    exact h

theorem wakeLoopTr_msg (fuel : Nat) (s : Kern) (o : Oid) (ev : Nat) :
    (wakeLoopTr fuel s o ev).1.msg = s.msg := by
  induction fuel generalizing s with
  | zero => rfl
  | succ n ih =>
      unfold wakeLoopTr
      cases hh : (s.waiters o).head? with
      | none => rfl
      | some t => simpa [wakeup_msg] using ih (core_tsk_wakeup s t ev)

theorem wakeLoopTr_counter (fuel : Nat) (s : Kern) (o : Oid) (ev : Nat) :
    (wakeLoopTr fuel s o ev).1.counter = s.counter := by
  induction fuel generalizing s with
  | zero => rfl
  | succ n ih =>
      unfold wakeLoopTr
      cases hh : (s.waiters o).head? with
      | none => rfl
      | some t => simpa [wakeup_counter] using ih (core_tsk_wakeup s t ev)

theorem wakeLoopTr_tmrs (fuel : Nat) (s : Kern) (o : Oid) (ev : Nat) :
    (wakeLoopTr fuel s o ev).1.tmrs = s.tmrs := by
  induction fuel generalizing s with
  | zero => rfl
  | succ n ih =>
      unfold wakeLoopTr
      cases hh : (s.waiters o).head? with
      | none => rfl
      | some t => simpa [wakeup_tmrs] using ih (core_tsk_wakeup s t ev)

theorem wakeLoopTr_event_preserve (fuel : Nat) (s : Kern) (o : Oid) (ev : Nat) (u : Tid)
    (h : (s.tasks u).event = ev) :
    ((wakeLoopTr fuel s o ev).1.tasks u).event = ev := by
  induction fuel generalizing s with
  | zero => exact h
  | succ n ih =>
      unfold wakeLoopTr
      cases hh : (s.waiters o).head? with
      | none => exact h
      | some t =>
          refine ih (core_tsk_wakeup s t ev) ?_
          by_cases hu : u = t
          · subst hu
            exact wakeup_event_self s u ev
          · rw [wakeup_tasks_noteq s t ev u hu]
            exact h

theorem wakeLoopTr_ready_mono (fuel : Nat) (s : Kern) (o : Oid) (ev : Nat) (u : Tid)
    (h : u ∈ s.ready) :
    u ∈ (wakeLoopTr fuel s o ev).1.ready := by
  induction fuel generalizing s with
  | zero => exact h
  | succ n ih =>
      unfold wakeLoopTr
      cases hh : (s.waiters o).head? with
      | none => exact h
      | some t => exact ih (core_tsk_wakeup s t ev) (wakeup_ready_mono s t ev u h)

theorem wakeLoopTr_waiters_nil (fuel : Nat) (s : Kern) (o : Oid) (ev : Nat)
    (hf : (s.waiters o).length ≤ fuel) :
    (wakeLoopTr fuel s o ev).1.waiters o = [] := by
  induction fuel generalizing s with
  | zero =>
      exact List.length_eq_zero.mp (Nat.le_zero.mp hf)
  | succ n ih =>
      unfold wakeLoopTr
      cases hl : s.waiters o with
      | nil => simp [hl]
      | cons a as =>
          simp only [hl, List.head?_cons]
          refine ih (core_tsk_wakeup s a ev) ?_
          rw [wakeup_waiters]
          simp only [hl, List.erase_cons_head]
          rw [hl] at hf
          simpa using Nat.le_of_succ_le_succ hf

theorem wakeLoopTr_woken (fuel : Nat) (s : Kern) (o : Oid) (ev : Nat)
    (hf : (s.waiters o).length ≤ fuel) :
    ∀ u ∈ s.waiters o,
      ((wakeLoopTr fuel s o ev).1.tasks u).event = ev ∧
      u ∈ (wakeLoopTr fuel s o ev).1.ready := by
  induction fuel generalizing s with
  | zero =>
      intro u hu
      rw [List.length_eq_zero.mp (Nat.le_zero.mp hf)] at hu
      exact absurd hu (List.not_mem_nil u)
  | succ n ih =>
      intro u hu
      unfold wakeLoopTr
      cases hl : s.waiters o with
      | nil =>
          rw [hl] at hu
          exact absurd hu (List.not_mem_nil u)
      | cons a as =>
          simp only [hl, List.head?_cons]
          have hnext : ((core_tsk_wakeup s a ev).waiters o) = as := by
            rw [wakeup_waiters]
            simp [hl, List.erase_cons_head]
          have hlen : ((core_tsk_wakeup s a ev).waiters o).length ≤ n := by
            rw [hnext]
            rw [hl] at hf
            simpa using Nat.le_of_succ_le_succ hf
          rw [hl] at hu
          rcases List.mem_cons.mp hu with rfl | hu
          · refine ⟨?_, ?_⟩
            · exact wakeLoopTr_event_preserve n (core_tsk_wakeup s u ev) o ev u
                (wakeup_event_self s u ev)
            · exact wakeLoopTr_ready_mono n (core_tsk_wakeup s u ev) o ev u
                (wakeup_ready_self s u ev)
          · have := ih (core_tsk_wakeup s a ev) hlen u (by rw [hnext]; exact hu)
            exact this

/-- C9: msg_kill zeroes the buffer's count, head and tail, empties its
waiters queue waking every waiter with STOPPED (each former waiter ends
in the ready list with event E_STOPPED), and is idempotent — a second
kill is a no-op on the whole kernel state. -/
theorem msg_kill_spec :
    (∀ s : Kern,
       (msg_kill s).msg.count = 0 ∧
       (msg_kill s).msg.head = 0 ∧
       (msg_kill s).msg.tail = 0 ∧
       (msg_kill s).waiters msgOid = [] ∧
       (∀ t ∈ s.waiters msgOid,
          ((msg_kill s).tasks t).event = E_STOPPED ∧ t ∈ (msg_kill s).ready)) ∧
    (∀ s : Kern, msg_kill (msg_kill s) = msg_kill s) := by
  have hfields : ∀ s : Kern,
      (msg_kill s).msg.count = 0 ∧ (msg_kill s).msg.head = 0 ∧ (msg_kill s).msg.tail = 0 := by
    intro s
    unfold msg_kill core_all_wakeup
    rw [wakeLoopTr_msg]
    exact ⟨rfl, rfl, rfl⟩
  have hnil : ∀ s : Kern, (msg_kill s).waiters msgOid = [] := by
    intro s
    unfold msg_kill core_all_wakeup
    exact wakeLoopTr_waiters_nil _ _ _ _ (Nat.le_refl _)
  refine ⟨fun s => ⟨(hfields s).1, (hfields s).2.1, (hfields s).2.2, hnil s, ?_⟩, ?_⟩
  · intro t ht
    unfold msg_kill core_all_wakeup
    exact wakeLoopTr_woken _ _ _ _ (Nat.le_refl _) t ht
  · intro s
    have h1 := hfields s
    have h2 := hnil s
    have hmsg : ({ (msg_kill s).msg with count := 0, head := 0, tail := 0 } : MsgB)
        = (msg_kill s).msg := by
      cases hm : (msg_kill s).msg
      rw [hm] at h1
      simp_all
    have e1 : msg_kill (msg_kill s)
        = (core_all_wakeup
            { msg_kill s with
                msg := { (msg_kill s).msg with count := 0, head := 0, tail := 0 } }
            msgOid E_STOPPED).1 := rfl
    rw [e1, hmsg]
    have e2 : ({ msg_kill s with msg := (msg_kill s).msg } : Kern) = msg_kill s := rfl
    rw [e2]
    show (wakeLoopTr ((msg_kill s).waiters msgOid).length (msg_kill s) msgOid E_STOPPED).1
        = msg_kill s
    rw [h2]
    rfl

/-- C9, witness at a concrete one-waiter buffer state. -/
theorem msg_kill_spec_witness :
    (3 ∈ fullState.waiters msgOid) ∧
    ((msg_kill fullState).tasks 3).event = E_STOPPED ∧
    msg_kill (msg_kill fullState) = msg_kill fullState :=
  ⟨by decide, ((msg_kill_spec.1 fullState).2.2.2.2 3 (by decide)).1,
   msg_kill_spec.2 fullState⟩

theorem mem_tmrWalk (s : Kern) (st dl : Nat) (e : DEnt) (l : List DEnt) :
    e ∈ tmrWalk s st dl e l := by
  induction l with
  | nil => simp [tmrWalk]
  | cons n ns ih =>
      unfold tmrWalk
      split_ifs with h
      · exact List.mem_cons_of_mem n ih
      · exact List.mem_cons_self e (n :: ns)

theorem mem_priv_tmr_insert_self (s : Kern) (e : DEnt) (k : OKind) :
    e ∈ (priv_tmr_insert s e k).delayed := by
  have hmem : e ∈ (if dentDelay s e = INFINITE then s.delayed ++ [e]
      else tmrWalk s (dentStart s e) (dentDelay s e) e s.delayed) := by
    split_ifs with h
    · exact List.mem_append_right _ (List.mem_singleton.mpr rfl)
    · exact mem_tmrWalk s _ _ e s.delayed
  unfold priv_tmr_insert setDEntOid
  cases e <;> simpa using hmem

theorem wakeLoopTr_delayed_timer (fuel : Nat) (s : Kern) (o : Oid) (ev : Nat) (q : Oid) :
    DEnt.timer q ∈ (wakeLoopTr fuel s o ev).1.delayed ↔ DEnt.timer q ∈ s.delayed := by
  induction fuel generalizing s with
  | zero => exact Iff.rfl
  | succ n ih =>
      unfold wakeLoopTr
      cases hh : (s.waiters o).head? with
      | none => exact Iff.rfl
      | some t =>
          rw [ih (core_tsk_wakeup s t ev), wakeup_delayed]
          exact List.mem_erase_of_ne (by simp)

theorem wakeLoopTr_trace (fuel : Nat) (s : Kern) (o : Oid) (ev : Nat)
    (hf : (s.waiters o).length ≤ fuel) (hnd : (s.waiters o).Nodup) :
    (wakeLoopTr fuel s o ev).2
      = (s.waiters o).map (fun u => Ev.wake u ev (s.tasks u).start (s.tasks u).delay) := by
  induction fuel generalizing s with
  | zero =>
      rw [List.length_eq_zero.mp (Nat.le_zero.mp hf)]
      rfl
  | succ n ih =>
      unfold wakeLoopTr
      cases hl : s.waiters o with
      | nil => simp [hl]
      | cons a as =>
          simp only [hl, List.head?_cons]
          have hnext : ((core_tsk_wakeup s a ev).waiters o) = as := by
            rw [wakeup_waiters]
            simp [hl, List.erase_cons_head]
          have hlen : ((core_tsk_wakeup s a ev).waiters o).length ≤ n := by
            rw [hnext]
            rw [hl] at hf
            simpa using Nat.le_of_succ_le_succ hf
          have hnd2 : ((core_tsk_wakeup s a ev).waiters o).Nodup := by
            rw [hnext]
            rw [hl] at hnd
            exact hnd.of_cons
          have hrec := ih (core_tsk_wakeup s a ev) hlen hnd2
          rw [hnext] at hrec
          have hnotin : a ∉ as := by
            rw [hl] at hnd
            exact (List.nodup_cons.mp hnd).1
          have hmap : (as.map fun u =>
              Ev.wake u ev (((core_tsk_wakeup s a ev).tasks u)).start
                (((core_tsk_wakeup s a ev).tasks u)).delay)
              = as.map fun u => Ev.wake u ev ((s.tasks u)).start ((s.tasks u)).delay := by
            refine List.map_congr_left ?_
            intro u hu
            rw [wakeup_tasks_noteq s a ev u (fun he => hnotin (he ▸ hu))]
          simp only [List.map_cons]
          rw [hrec, hmap]

/-- C6: one step of the tick/timer handler on an expired ID_TIMER head
performs exactly the specified sequence: it advances `start` by the old
delay, sets `delay` to the period, invokes the callback (the trace
starts with the callback event, which already observes the new
`start`/`delay`) when one is present, removes the timer and re-inserts
it exactly when the new delay (the period) is non-zero, and wakes every
task waiting on the timer object with SUCCESS; an expired ID_DELAYED
head (a delayed task) is instead woken with TIMEOUT. -/
theorem tmr_handler_step_spec :
    (∀ s o rest, s.delayed = DEnt.timer o :: rest →
       (s.tmrs o).oid = OKind.timer →
       dentExpired s (.timer o) = true →
       DEnt.timer o ∉ rest →
       (s.waiters o).Nodup →
       ((core_tmr_handler 1 s).1.tmrs o).start = add32 (s.tmrs o).start (s.tmrs o).delay ∧
       ((core_tmr_handler 1 s).1.tmrs o).delay = (s.tmrs o).period ∧
       (core_tmr_handler 1 s).2
         = (if (s.tmrs o).hasCb then
              [Ev.cb o (add32 (s.tmrs o).start (s.tmrs o).delay) (s.tmrs o).period] else [])
           ++ (s.waiters o).map
                (fun u => Ev.wake u E_SUCCESS (s.tasks u).start (s.tasks u).delay) ∧
       ((DEnt.timer o ∈ (core_tmr_handler 1 s).1.delayed) ↔ (s.tmrs o).period ≠ 0) ∧
       (∀ u ∈ s.waiters o,
          ((core_tmr_handler 1 s).1.tasks u).event = E_SUCCESS ∧
          u ∈ (core_tmr_handler 1 s).1.ready)) ∧
    (∀ s t rest, s.delayed = DEnt.task t :: rest →
       (s.tasks t).oid ≠ OKind.timer →
       dentExpired s (.task t) = true →
       ((core_tmr_handler 1 s).1.tasks t).event = E_TIMEOUT ∧
       t ∈ (core_tmr_handler 1 s).1.ready ∧
       (core_tmr_handler 1 s).2 = [Ev.wake t E_TIMEOUT (s.tasks t).start (s.tasks t).delay]) := by
  constructor
  · intro s o rest hd hoid hexp hnotin hnd
    have hhd : s.delayed.head? = some (DEnt.timer o) := by rw [hd]; rfl
    have hrun : core_tmr_handler 1 s = priv_tmr_wakeup s o E_SUCCESS := by
      unfold core_tmr_handler
      rw [hhd]
      simp [hexp, hoid, core_tmr_handler]
    have hQw : (tmrReQueue (tmrFieldsUpdate s o) o).waiters = s.waiters := by
      unfold tmrReQueue
      split_ifs <;> rfl
    have hQt : (tmrReQueue (tmrFieldsUpdate s o) o).tasks = s.tasks := by
      unfold tmrReQueue
      split_ifs <;> rfl
    have hQtm : ((tmrReQueue (tmrFieldsUpdate s o) o).tmrs o).start
          = add32 (s.tmrs o).start (s.tmrs o).delay ∧
        ((tmrReQueue (tmrFieldsUpdate s o) o).tmrs o).delay = (s.tmrs o).period := by
      unfold tmrReQueue
      split_ifs with h
      · constructor <;>
          simp [priv_tmr_insert, setDEntOid, core_tmr_remove, tmrFieldsUpdate,
            Function.update_same]
      · constructor <;>
          simp [core_tmr_remove, setDEntOid, tmrFieldsUpdate, Function.update_same]
    have hBdel : (core_tmr_remove (tmrFieldsUpdate s o) (DEnt.timer o)).delayed = rest := by
      have : (core_tmr_remove (tmrFieldsUpdate s o) (DEnt.timer o)).delayed
          = s.delayed.erase (DEnt.timer o) := rfl
      rw [this, hd, List.erase_cons_head]
    have hBtm : ((core_tmr_remove (tmrFieldsUpdate s o) (DEnt.timer o)).tmrs o).delay
        = (s.tmrs o).period := by
      simp [core_tmr_remove, setDEntOid, tmrFieldsUpdate, Function.update_same]
    have hQd : (DEnt.timer o ∈ (tmrReQueue (tmrFieldsUpdate s o) o).delayed)
        ↔ (s.tmrs o).period ≠ 0 := by
      unfold tmrReQueue
      by_cases hper : (s.tmrs o).period = 0
      · rw [if_neg (by rw [hBtm]; simpa using hper)]
        rw [hBdel]
        simp [hper, hnotin]
      · rw [if_pos (by rw [hBtm]; simpa using hper)]
        simp only [hper, ne_eq, not_false_iff, iff_true]
        exact mem_priv_tmr_insert_self _ _ _
    rw [hrun]
    have hlen : ((tmrReQueue (tmrFieldsUpdate s o) o).waiters o).length
        ≤ ((tmrReQueue (tmrFieldsUpdate s o) o).waiters o).length := Nat.le_refl _
    refine ⟨?_, ?_, ?_, ?_, ?_⟩
    · show ((priv_tmr_wakeup s o E_SUCCESS).1.tmrs o).start = _
      unfold priv_tmr_wakeup core_all_wakeup
      rw [wakeLoopTr_tmrs]
      exact hQtm.1
    · show ((priv_tmr_wakeup s o E_SUCCESS).1.tmrs o).delay = _
      unfold priv_tmr_wakeup core_all_wakeup
      rw [wakeLoopTr_tmrs]
      exact hQtm.2
    · show (priv_tmr_wakeup s o E_SUCCESS).2 = _
      unfold priv_tmr_wakeup core_all_wakeup
      rw [wakeLoopTr_trace _ _ _ _ hlen (by rw [hQw]; exact hnd)]
      rw [hQw, hQt]
    · show DEnt.timer o ∈ (priv_tmr_wakeup s o E_SUCCESS).1.delayed ↔ _
      unfold priv_tmr_wakeup core_all_wakeup
      rw [wakeLoopTr_delayed_timer]
      exact hQd
    · intro u hu
      show ((priv_tmr_wakeup s o E_SUCCESS).1.tasks u).event = E_SUCCESS ∧
          u ∈ (priv_tmr_wakeup s o E_SUCCESS).1.ready
      unfold priv_tmr_wakeup core_all_wakeup
      exact wakeLoopTr_woken _ _ _ _ hlen u (by rw [hQw]; exact hu)
  · intro s t rest hd hoid hexp
    have hhd : s.delayed.head? = some (DEnt.task t) := by rw [hd]; rfl
    have hrun : core_tmr_handler 1 s
        = (core_tsk_wakeup s t E_TIMEOUT,
           Ev.wake t E_TIMEOUT (s.tasks t).start (s.tasks t).delay :: []) := by
      unfold core_tmr_handler
      rw [hhd]
      simp [hexp, hoid]
      exact ⟨rfl, rfl⟩
    rw [hrun]
    exact ⟨wakeup_event_self s t E_TIMEOUT, wakeup_ready_self s t E_TIMEOUT, rfl⟩

/-- C6, witness: a concrete expired periodic timer with one waiter, and a
concrete expired delayed task. -/
theorem tmr_handler_step_spec_witness :
    (((core_tmr_handler 1 tmrState).1.tmrs 20).start
        = add32 (tmrState.tmrs 20).start (tmrState.tmrs 20).delay ∧
     ((core_tmr_handler 1 tmrState).1.tmrs 20).delay = (tmrState.tmrs 20).period ∧
     (DEnt.timer 20 ∈ (core_tmr_handler 1 tmrState).1.delayed ↔
        (tmrState.tmrs 20).period ≠ 0)) ∧
    (((core_tmr_handler 1 delayedTaskState).1.tasks 5).event = E_TIMEOUT ∧
     (5 : Tid) ∈ (core_tmr_handler 1 delayedTaskState).1.ready) := by
  have h1 := (tmr_handler_step_spec.1 tmrState 20 [] (by decide) (by decide) (by decide)
    (by decide) (by decide))
  have h2 := (tmr_handler_step_spec.2 delayedTaskState 5 [] (by decide) (by decide) (by decide))
  exact ⟨⟨h1.1, h1.2.1, h1.2.2.2.1⟩, ⟨h2.1, h2.2.1⟩⟩

theorem wakeLoopTr_trace_code (fuel : Nat) (s : Kern) (o : Oid) (ev : Nat) :
    ∀ x ∈ (wakeLoopTr fuel s o ev).2, ∃ u a b, x = Ev.wake u ev a b := by
  induction fuel generalizing s with
  | zero => simp [wakeLoopTr]
  | succ n ih =>
      unfold wakeLoopTr
      cases hh : (s.waiters o).head? with
      | none => simp
      | some t =>
          intro x hx
          rcases List.mem_cons.mp hx with rfl | hx
          · exact ⟨t, _, _, rfl⟩
          · exact ih (core_tsk_wakeup s t ev) x hx

theorem priv_tmr_wakeup_counter (s : Kern) (o : Oid) (ev : Nat) :
    (priv_tmr_wakeup s o ev).1.counter = s.counter := by
  unfold priv_tmr_wakeup core_all_wakeup
  rw [wakeLoopTr_counter]
  unfold tmrReQueue
  split_ifs <;> rfl

theorem putUpdateLoop_event_preserve (fuel : Nat) (s : Kern) (u : Tid)
    (h : u ∉ s.waiters msgOid) :
    ((putUpdateLoop fuel s).1.tasks u).event = (s.tasks u).event := by
  induction fuel generalizing s with
  | zero => rfl
  | succ n ih =>
      unfold putUpdateLoop
      cases hh : (s.waiters msgOid).head? with
      | none => rfl
      | some t =>
          have ht : t ∈ s.waiters msgOid := by
            apply List.mem_of_mem_head?
            rw [hh]
            rfl
          have hut : u ≠ t := fun he => h (he ▸ ht)
          by_cases hc : (s.tasks t).tmpSize ≥ priv_msg_count s.msg
          · simp only [hc, if_pos]
            set s1 : Kern :=
              { s with msg := (priv_msg_get (priv_msg_getSize s.msg).1 (priv_msg_getSize s.msg).2).1
                     , tasks := Function.update s.tasks t
                         { s.tasks t with
                             tmpIn := (priv_msg_get (priv_msg_getSize s.msg).1 (priv_msg_getSize s.msg).2).2
                           , tmpSize := (s.tasks t).tmpSize - (priv_msg_getSize s.msg).2 } } with hs1
            have hw2 : u ∉ (core_tsk_wakeup s1 t E_SUCCESS).waiters msgOid := by
              rw [wakeup_waiters]
              intro hmem
              exact h (List.mem_of_mem_erase hmem)
            have := ih (core_tsk_wakeup s1 t E_SUCCESS) hw2
            rw [this, wakeup_tasks_noteq s1 t E_SUCCESS u hut, hs1]
            simp [Function.update_noteq hut]
          · simp only [hc, if_neg, not_false_iff]
            have hw2 : u ∉ (core_tsk_wakeup s t E_TIMEOUT).waiters msgOid := by
              rw [wakeup_waiters]
              intro hmem
              exact h (List.mem_of_mem_erase hmem)
            have := ih (core_tsk_wakeup s t E_TIMEOUT) hw2
            rw [this, wakeup_tasks_noteq s t E_TIMEOUT u hut]

theorem handler_timeout_gating (fuel : Nat) (s : Kern) (t : Tid) (st dl : Nat)
    (hmem : Ev.wake t E_TIMEOUT st dl ∈ (core_tmr_handler fuel s).2) :
    priv_tmr_expired s.counter st dl = true := by
  induction fuel generalizing s with
  | zero => exact absurd hmem (by simp [core_tmr_handler])
  | succ n ih =>
      unfold core_tmr_handler at hmem
      split at hmem
      · exact absurd hmem (by simp)
      · split at hmem
        · rename_i e heq hex
          split at hmem
          · rename_i o
            split at hmem
            · rename_i hoid
              simp only [List.mem_append] at hmem
              rcases hmem with hm | hm
              · unfold priv_tmr_wakeup at hm
                simp only [List.mem_append] at hm
                rcases hm with hm | hm
                · by_cases hcb : (s.tmrs o).hasCb
                  · rw [if_pos hcb] at hm
                    simp at hm
                  · rw [if_neg hcb] at hm
                    simp at hm
                · obtain ⟨u, a, b, hEq⟩ := wakeLoopTr_trace_code _ _ _ _ _ hm
                  simp only [Ev.wake.injEq] at hEq
                  exact absurd hEq.2.1 (by simp [E_TIMEOUT, E_SUCCESS])
              · have := ih (priv_tmr_wakeup s o E_SUCCESS).1 hm
                rwa [priv_tmr_wakeup_counter] at this
            · exact absurd hmem (by simp)
          · rename_i t2
            split at hmem
            · exact absurd hmem (by simp)
            · rename_i hoid
              simp only [List.mem_cons] at hmem
              rcases hmem with hEq | hm
              · simp only [Ev.wake.injEq] at hEq
                obtain ⟨rfl, _, rfl, rfl⟩ := hEq
                exact hex
              · have := ih (core_tsk_wakeup s t2 E_TIMEOUT) hm
                rwa [wakeup_counter] at this
        · exact absurd hmem (by simp)

theorem putUpdateLoop_timeout_step (n : Nat) (S : Kern) (t : Tid) (l : List Tid)
    (hh : S.waiters msgOid = t :: l)
    (hc : ¬ (S.tasks t).tmpSize ≥ priv_msg_count S.msg) :
    putUpdateLoop (n + 1) S
      = ((putUpdateLoop n (core_tsk_wakeup S t E_TIMEOUT)).1,
         Ev.wake t E_TIMEOUT (S.tasks t).start (S.tasks t).delay
           :: (putUpdateLoop n (core_tsk_wakeup S t E_TIMEOUT)).2) := by
  have hh2 : (S.waiters msgOid).head? = some t := by rw [hh]; rfl
  conv_lhs => unfold putUpdateLoop
  simp only [hh2]
  rw [if_neg hc]

/-- C3, amended: the tick/timer handler delivers TIMEOUT only to entries
whose deadline test holds — every TIMEOUT wake event it emits carries a
`start`/`delay` pair for which priv_tmr_expired is true at the current
Counter — **but** the handler is not the only TIMEOUT source: the
message-buffer helper priv_msg_putUpdate wakes a waiting receiver with
TIMEOUT, regardless of its deadline, whenever the receiver's requested
size is smaller than the stored message length. -/
theorem timeout_delivery_spec :
    (∀ (fuel : Nat) (s : Kern) (t : Tid) (st dl : Nat),
       Ev.wake t E_TIMEOUT st dl ∈ (core_tmr_handler fuel s).2 →
       priv_tmr_expired s.counter st dl = true) ∧
    (∀ (s : Kern) (bytes : List Nat) (t : Tid) (rest : List Tid),
       s.waiters msgOid = t :: rest →
       t ∉ rest →
       (s.tasks t).tmpSize
           < priv_msg_count (priv_msg_put (priv_msg_putSize s.msg bytes.length) bytes) →
       (priv_msg_putUpdate s bytes).2.head?
           = some (Ev.wake t E_TIMEOUT (s.tasks t).start (s.tasks t).delay) ∧
       ((priv_msg_putUpdate s bytes).1.tasks t).event = E_TIMEOUT) := by
  constructor
  · exact fun fuel s t st dl hmem => handler_timeout_gating fuel s t st dl hmem
  · intro s bytes t rest hw hnotin hlt
    have hpu : priv_msg_putUpdate s bytes
        = putUpdateLoop (s.waiters msgOid).length
            { s with msg := priv_msg_put (priv_msg_putSize s.msg bytes.length) bytes } := rfl
    have hh : (({ s with
          msg := priv_msg_put (priv_msg_putSize s.msg bytes.length) bytes } : Kern).waiters
            msgOid) = t :: rest := hw
    have hcond : ¬ (({ s with
          msg := priv_msg_put (priv_msg_putSize s.msg bytes.length) bytes } : Kern).tasks
            t).tmpSize ≥ priv_msg_count ({ s with
          msg := priv_msg_put (priv_msg_putSize s.msg bytes.length) bytes } : Kern).msg := by
      show ¬ (s.tasks t).tmpSize
          ≥ priv_msg_count (priv_msg_put (priv_msg_putSize s.msg bytes.length) bytes)
      omega
    rw [hpu, hw, List.length_cons,
      putUpdateLoop_timeout_step rest.length _ t rest hh hcond]
    refine ⟨rfl, ?_⟩
    have hw2 : t ∉ (core_tsk_wakeup
        { s with msg := priv_msg_put (priv_msg_putSize s.msg bytes.length) bytes }
        t E_TIMEOUT).waiters msgOid := by
      have he : (core_tsk_wakeup
          { s with msg := priv_msg_put (priv_msg_putSize s.msg bytes.length) bytes }
          t E_TIMEOUT).waiters msgOid
          = (({ s with msg := priv_msg_put (priv_msg_putSize s.msg bytes.length) bytes }
              : Kern).waiters msgOid).erase t := rfl
      rw [he, hh, List.erase_cons_head]
      exact hnotin
    have hpres := putUpdateLoop_event_preserve rest.length
      (core_tsk_wakeup
        { s with msg := priv_msg_put (priv_msg_putSize s.msg bytes.length) bytes }
        t E_TIMEOUT) t hw2
    simp only [hpres]
    exact wakeup_event_self _ t E_TIMEOUT

/-- C3, counterexample: buffer empty, task 1 blocked receiving into a
2-byte buffer with a 100-tick deadline not yet reached (Counter = start
= 0); the interrupt-mode send of the 5-byte "hello" (a wake path other
than the tick handler) delivers E_TIMEOUT to task 1 although
priv_tmr_expired is false for its deadline — refuting "a blocked task is
woken with TIMEOUT only by the tick/timer handler, and only when its
deadline has been reached". -/
theorem msg_put_timeout_before_deadline_cex :
    (msg_give smallRecvState hello).tr.head? = some (Ev.wake 1 E_TIMEOUT 0 100) ∧
    ((msg_give smallRecvState hello).k.tasks 1).event = E_TIMEOUT ∧
    priv_tmr_expired smallRecvState.counter 0 100 = false := by
  decide

/-- C3, witness: the handler part applied to a concrete expired delayed
task, and the putUpdate part applied to the undersized receiver. -/
theorem timeout_delivery_spec_witness :
    priv_tmr_expired delayedTaskState.counter 0 5 = true ∧
    (priv_msg_putUpdate smallRecvState hello).2.head?
        = some (Ev.wake 1 E_TIMEOUT (smallRecvState.tasks 1).start
            (smallRecvState.tasks 1).delay) :=
  ⟨timeout_delivery_spec.1 1 delayedTaskState 5 0 5 (by decide),
   (timeout_delivery_spec.2 smallRecvState hello 1 [] (by decide) (by decide) (by decide)).1⟩

end StateOS
